import Mathlib

/-!
# service-portal-berlin-appointments: checker, notifier and ticker

A shallow embedding of `pkg/checker/checker.go`, `pkg/notifier/notifier.go`
and `pkg/ticker/ticker.go`, followed by the properties established for them.

* The HTML tree is the tree of `html.Node` values that goquery walks; the
  three goquery operations the checker uses (`Find` with a tag selector,
  `HasClass`, `Text`) are written out over that tree.
* The outside world (HTTP client, HTML reader, SMTP server) is a record of
  answer functions; every call the code makes is recorded in a trace.
* A nil pointer dereference is a result of its own (`panicked`), since it
  ends the process instead of returning to the caller.
-/

set_option autoImplicit false
set_option linter.dupNamespace false

/-! ## The HTML tree and the goquery operations -/

namespace html

/-- A node of the parsed tree. `element` carries the tag name, the class
names of its `class` attribute and its children; the other node kinds are
leaves. -/
inductive Node where
  | text (Data : String)
  | comment (Data : String)
  | doctype (Data : String)
  | element (Data : String) (Class : List String) (Children : List Node)

/-- Children of a node (`FirstChild` ... `NextSibling`). -/
def Node.Children : Node → List Node
  | .element _ _ cs => cs
  | _ => []

/-- Test `n.Type == html.ElementNode`. -/
def Node.isElement : Node → Bool
  | .element _ _ _ => true
  | _ => false

end html

namespace goquery

open html

mutual
/-- All nodes of the subtree of `n`, `n` included, that are elements named
`tag`, in pre-order: what the compiled tag selector returns from `MatchAll`. -/
def MatchAll (tag : String) : Node → List Node
  | .element d cl cs =>
      (if d = tag then [Node.element d cl cs] else []) ++ MatchAllList tag cs
  | _ => []
/-- The loop of `MatchAll` over the siblings. -/
def MatchAllList (tag : String) : List Node → List Node
  | [] => []
  | c :: cs => MatchAll tag c ++ MatchAllList tag cs
end

/-- Selection of the descendants found below the given child list: for each
child that is an element, everything `MatchAll` finds in it. -/
def findWithMatcher (tag : String) (children : List Node) : List Node :=
  (children.filter Node.isElement).flatMap (MatchAll tag)

/-- Call `s.Find(tag)` on the selection holding the single node `n`: the
matching descendants of `n` in document order, `n` itself excluded. -/
def Find (tag : String) (n : Node) : List Node :=
  findWithMatcher tag n.Children

/-- Call `s.HasClass(c)` on the selection holding the single node `n`. -/
def HasClass (c : String) : Node → Bool
  | .element _ cl _ => decide (c ∈ cl)
  | _ => false

mutual
/-- Call `s.Text()` on the selection holding the single node `n`: the data of
all text nodes of the subtree, concatenated in order. -/
def Text : Node → String
  | .text d => d
  | .element _ _ cs => TextList cs
  | _ => ""
/-- The loop of `Text` over the siblings. -/
def TextList : List Node → String
  | [] => ""
  | c :: cs => Text c ++ TextList cs
end

/-- A parsed document: the children of its root node. -/
structure Document where
  Root : List Node

/-- Call `doc.Find(tag)` on the whole document. -/
def Document.Find (tag : String) (doc : Document) : List Node :=
  findWithMatcher tag doc.Root

end goquery

/-! ## pkg/checker -/

namespace checker

open html goquery

/-- One bookable day. -/
structure Appointment where
  Day : String
  Month : String
deriving DecidableEq, Repr

/-- Body of the callback of `table.Find("th").Each`: the captured variable
`month` after visiting `th`. -/
def thCallback (month : String) (th : Node) : String :=
  if HasClass "month" th then Text th else month

/-- Body of the callback of `table.Find("td").Each`: the captured slice
`appointments` after visiting `td`. -/
def tdCallback (month : String) (appointments : List Appointment) (td : Node) :
    List Appointment :=
  if HasClass "buchbar" td then
    appointments ++ [{ Day := Text td, Month := month }]
  else appointments

/-- Body of the callback of `doc.Find("table").Each`: `month` starts empty,
the header cells are scanned, then the data cells are scanned and appended. -/
def tableCallback (appointments : List Appointment) (table : Node) :
    List Appointment :=
  let month := (Find "th" table).foldl thCallback ""
  (Find "td" table).foldl (tdCallback month) appointments

/-- The parsing part of `GetAppointments` (from `appointments := []` to the
final return): one pass over the tables of the document. -/
def parseDocument (doc : Document) : List Appointment :=
  (doc.Find "table").foldl tableCallback []

end checker

/-! ## The outside world: net/http, net/url, net/smtp, time -/

/-- A Go `error` value, identified with its message. -/
abbrev Error := String

/-- What a call yields: either it returns to its caller, or it panics and the
process ends (no `recover` is installed anywhere in the program). -/
inductive Outcome (α : Type) where
  | returned (value : α)
  | panicked (msg : String)
deriving DecidableEq, Repr

/-- Message of the runtime panic raised by a nil pointer dereference. -/
def nilDereference : String :=
  "runtime error: invalid memory address or nil pointer dereference"

namespace url

/-- A parsed URL, as far as the checker reads it: its `Host` and the result
of `String()`. -/
structure URL where
  Host : String
  String : String
deriving DecidableEq, Repr

end url

namespace http

/-- A header map: canonical key and the values stored under it. -/
abbrev Header := List (String × List String)

/-- Upper-case the first letter and every letter after a hyphen, lower-case
the others (`textproto.CanonicalMIMEHeaderKey` on a key of letters and
hyphens). -/
def canonicalChars : Bool → List Char → List Char
  | _, [] => []
  | upper, c :: cs =>
      (if upper then c.toUpper else c.toLower) :: canonicalChars (c == '-') cs

/-- Canonical form of a header key. -/
def CanonicalHeaderKey (key : String) : String :=
  String.mk (canonicalChars true key.data)

/-- Call `h.Get(key)`: the first value stored under the key, or the empty
string when there is none. -/
def Header.Get (h : Header) (key : String) : String :=
  match h.lookup (CanonicalHeaderKey key) with
  | some (v :: _) => v
  | _ => ""

/-- Call `h.Set(key, value)`: the key now holds exactly `value`. -/
def Header.Set (h : Header) (key value : String) : Header :=
  (CanonicalHeaderKey key, [value]) ::
    h.filter (fun kv => kv.1 != CanonicalHeaderKey key)

/-- An outgoing request. -/
structure Request where
  Method : String
  URL : String
  Header : Header
deriving DecidableEq, Repr

/-- A received response; `Body` stands for the content of the body reader. -/
structure Response where
  StatusCode : Int
  Header : Header
  Body : String
deriving DecidableEq, Repr

end http

namespace smtp

/-- Value built by `smtp.PlainAuth(identity, username, password, host)`. -/
structure PlainAuth where
  identity : String
  username : String
  password : String
  host : String
deriving DecidableEq, Repr

end smtp

namespace time

/-- Wrap-around of a 64-bit signed integer on overflow. -/
def wrap64 (x : Int) : Int :=
  (x + 2 ^ 63) % 2 ^ 64 - 2 ^ 63

/-- Expression `time.Duration(seconds) * time.Second`, in nanoseconds. -/
def Seconds (seconds : Int) : Int :=
  wrap64 (wrap64 seconds * 1000000000)

end time

/-- Answers of the outside world during one poll cycle. -/
structure World where
  /-- Function `http.NewRequest(method, url, nil)`. -/
  NewRequest : String → String → Except Error http.Request
  /-- Method `client.Do(req)`: the response pointer and the error. -/
  Do : http.Request → Option http.Response × Option Error
  /-- Function `goquery.NewDocumentFromReader(body)`. -/
  NewDocumentFromReader : String → Except Error goquery.Document
  /-- Function `smtp.SendMail(addr, auth, from, to, msg)`. -/
  SendMail : String → smtp.PlainAuth → String → List String → String → Option Error

/-- Calls made to the outside, in the order they happen. -/
inductive Event where
  | Do (req : http.Request)
  | NewDocumentFromReader (body : String)
  | SendMail (addr : String) (auth : smtp.PlainAuth) (sender : String)
      (rcpt : List String) (msg : String)
  | Errorf (msg : String) (err : Option Error)
  | Infof (msg : String)
  | Tick
  | GetAppointments
  | Notify (appointments : List checker.Appointment)
  | After (d : Int)
  | Panic (msg : String)
deriving DecidableEq, Repr

namespace checker

open html goquery http

structure Config where
  CookieURL : String
  AppointmentURL : String
deriving DecidableEq, Repr

/-- The checker after construction: the configuration and the two parsed
URLs. The HTTP client is the `Do` of the world. -/
structure checker where
  cfg : Config
  cookieURL : url.URL
  appointmentURL : url.URL
deriving DecidableEq, Repr

/-- The cookie request as sent: the new request with its `host` header set. -/
def cookieRequest (c : checker) (req : Request) : Request :=
  { req with Header := Header.Set req.Header "host" c.cookieURL.Host }

/-- The appointment request as sent: `host` and `cookie` headers set. -/
def appointmentRequest (c : checker) (req : Request) (cookie : String) : Request :=
  { req with
    Header := Header.Set (Header.Set req.Header "host" c.appointmentURL.Host) "cookie" cookie }

/-- Method `GetAppointments`: the value handed to the caller (slots and
error, or a panic) and the trace of the calls made. -/
def GetAppointments (w : World) (c : checker) :
    Outcome (List Appointment × Option Error) × List Event :=
  match w.NewRequest "GET" c.cookieURL.String with
  | .error err =>
      (.returned ([], some err), [.Errorf "could not create cookie request" (some err)])
  | .ok req1 =>
    match w.Do (cookieRequest c req1) with
    | (_, some err) =>
        (.returned ([], some err),
          [.Do (cookieRequest c req1), .Errorf "could not send http cookieRequest" (some err)])
    | (none, none) =>
        (.panicked nilDereference, [.Do (cookieRequest c req1)])
    | (some cookieResp, none) =>
      let cookie := Header.Get cookieResp.Header "Set-Cookie"
      if cookie = "" then
        (.returned ([], some "could not get cookie from http response"),
          [.Do (cookieRequest c req1),
           .Errorf "could not get cookie from http response" none])
      else
        match w.NewRequest "GET" c.appointmentURL.String with
        | .error err =>
            (.returned ([], some err),
              [.Do (cookieRequest c req1),
               .Errorf "could not create appointment request" (some err)])
        | .ok req2 =>
          match w.Do (appointmentRequest c req2 cookie) with
          | (none, _) =>
              (.panicked nilDereference,
                [.Do (cookieRequest c req1), .Do (appointmentRequest c req2 cookie)])
          | (some appointmentResp, _) =>
            if appointmentResp.StatusCode < 200 ∨ appointmentResp.StatusCode ≥ 300 then
              let errMsg :=
                "received non okay status code: " ++ toString cookieResp.StatusCode
              (.returned ([], some errMsg),
                [.Do (cookieRequest c req1), .Do (appointmentRequest c req2 cookie),
                 .Errorf errMsg none])
            else
              match w.NewDocumentFromReader appointmentResp.Body with
              | .error err =>
                  (.returned ([], some err),
                    [.Do (cookieRequest c req1), .Do (appointmentRequest c req2 cookie),
                     .NewDocumentFromReader appointmentResp.Body,
                     .Errorf "could not doc from appointment response body" (some err)])
              | .ok doc =>
                  (.returned (parseDocument doc, none),
                    [.Do (cookieRequest c req1), .Do (appointmentRequest c req2 cookie),
                     .NewDocumentFromReader appointmentResp.Body])

end checker

/-! ## pkg/notifier -/

namespace notifier

structure SMTPNotifierConfig where
  Address : String
  Identity : String
  Host : String
  From : String
  To : List String
  Subject : String
  Username : String
  Password : String
  MsgURL : String
deriving DecidableEq, Repr

structure smtpNotifier where
  cfg : SMTPNotifierConfig
deriving DecidableEq, Repr

/-- What the verb `%s` of `fmt.Sprintf` prints for a slice of strings: the
elements separated by one space, between square brackets. -/
def sprintStrings (xs : List String) : String :=
  "[" ++ " ".intercalate xs ++ "]"

/-- Variable `msgHeader` of `Notify`. -/
def msgHeader (n : smtpNotifier) : String :=
  "From: " ++ n.cfg.From ++ "\r\nTo: " ++ sprintStrings n.cfg.To ++
    "\r\nSubject: " ++ n.cfg.Subject ++ "\r\n"

/-- Variable `msgBody` of `Notify`. -/
def msgBody (n : smtpNotifier) (appointments : List checker.Appointment) : String :=
  "Hello!\nThere are " ++ toString appointments.length ++ " new apppointments on " ++
    n.cfg.MsgURL ++ "!"

/-- Variable `msg` of `Notify`: the bytes handed to `smtp.SendMail`. -/
def msg (n : smtpNotifier) (appointments : List checker.Appointment) : String :=
  msgHeader n ++ msgBody n appointments

/-- Method `Notify`: the error returned and the trace of the calls made. -/
def Notify (w : World) (n : smtpNotifier) (appointments : List checker.Appointment) :
    Option Error × List Event :=
  (w.SendMail n.cfg.Address
      ⟨n.cfg.Identity, n.cfg.Username, n.cfg.Password, n.cfg.Host⟩
      n.cfg.From n.cfg.To (msg n appointments),
   [.Infof ("notifying about " ++ toString appointments.length ++ " appointments"),
    .SendMail n.cfg.Address ⟨n.cfg.Identity, n.cfg.Username, n.cfg.Password, n.cfg.Host⟩
      n.cfg.From n.cfg.To (msg n appointments)])

end notifier

/-! ## pkg/ticker -/

namespace ticker

structure Config where
  CheckIntervalInSeconds : Int
  RepeatIntervalInSeconds : Int
  CheckerCfg : checker.Config
  NotifierCfg : notifier.SMTPNotifierConfig
deriving DecidableEq, Repr

/-- The ticker after construction. -/
structure ticker where
  cfg : Config
  checker : checker.checker
  notifier : notifier.smtpNotifier
deriving DecidableEq, Repr

/-- One pass through the body of the `for` loop of `Run`, in world `w`: the
trace of the pass, and whether the loop goes on to its next pass (`false`
when the pass ended in a panic). -/
def iteration (t : ticker) (w : World) : Bool × List Event :=
  match checker.GetAppointments w t.checker with
  | (.panicked m, tr) => (false, [Event.Tick, .GetAppointments] ++ tr ++ [.Panic m])
  | (.returned (_, some err), tr) =>
      (true, [Event.Tick, .GetAppointments] ++ tr ++
        [.Errorf "could not check appointments" (some err)])
  | (.returned (appointments, none), tr) =>
      if appointments.length = 0 then
        (true, [Event.Tick, .GetAppointments] ++ tr ++ [.Infof "no appointments received"])
      else
        match notifier.Notify w t.notifier appointments with
        | (some err, tr2) =>
            (true, [Event.Tick, .GetAppointments] ++ tr ++ [.Notify appointments] ++ tr2 ++
              [.Errorf "could not notify about appointments" (some err),
               .After (time.Seconds t.cfg.RepeatIntervalInSeconds)])
        | (none, tr2) =>
            (true, [Event.Tick, .GetAppointments] ++ tr ++ [.Notify appointments] ++ tr2 ++
              [.After (time.Seconds t.cfg.RepeatIntervalInSeconds)])

/-- The `for` loop of `Run`, one world per pass; the loop itself never ends,
so the list of worlds bounds how many passes are observed. -/
def loop (t : ticker) : List World → List Event
  | [] => []
  | w :: ws =>
      match iteration t w with
      | (true, tr) => tr ++ loop t ws
      | (false, tr) => tr

/-- Method `Run`: `time.NewTicker` panics on a non-positive interval,
otherwise the loop runs. -/
def Run (t : ticker) (ws : List World) : List Event :=
  if time.Seconds t.cfg.CheckIntervalInSeconds ≤ 0 then
    [.Panic "non-positive interval for NewTicker"]
  else loop t ws

/-- The slot lists the notifier was called with, in order. -/
def notifyCalls : List Event → List (List checker.Appointment)
  | [] => []
  | .Notify a :: es => a :: notifyCalls es
  | _ :: es => notifyCalls es

/-- The durations of the cooldown waits, in order. -/
def cooldownWaits : List Event → List Int
  | [] => []
  | .After d :: es => d :: cooldownWaits es
  | _ :: es => cooldownWaits es

end ticker

/-! ## Vocabulary of the properties -/

namespace checker

open html goquery http

/-- The `th` cells with class `month` that table `t` contains, in document
order. -/
def monthCells (t : Node) : List Node :=
  (Find "th" t).filter (HasClass "month")

/-- The `td` cells with class `buchbar` that table `t` contains, in document
order. -/
def buchbarCells (t : Node) : List Node :=
  (Find "td" t).filter (HasClass "buchbar")

mutual
/-- The `td` elements of the subtree of a node that lie in no `table`
element of that subtree, in document order. -/
def looseCells : Node → List Node
  | .element d cl cs =>
      if d = "table" then []
      else (if d = "td" then [Node.element d cl cs] else []) ++ looseCellsList cs
  | _ => []
/-- The same over a list of siblings. -/
def looseCellsList : List Node → List Node
  | [] => []
  | c :: cs => looseCells c ++ looseCellsList cs
end

mutual
/-- The elements named `tag` of the subtree of a node that lie in no `table`
element of that subtree, in document order. -/
def ownMatch (tag : String) : Node → List Node
  | .element d cl cs =>
      if d = "table" then []
      else (if d = tag then [Node.element d cl cs] else []) ++ ownMatchList tag cs
  | _ => []
/-- The same over a list of siblings. -/
def ownMatchList (tag : String) : List Node → List Node
  | [] => []
  | c :: cs => ownMatch tag c ++ ownMatchList tag cs
end

/-- The cells named `tag` of table `t` itself: the ones among its descendants
that lie in no table nested in `t`. -/
def ownCells (tag : String) (t : Node) : List Node :=
  ownMatchList tag t.Children

/-- The `th` cells with class `month` of table `t` itself, in document order. -/
def ownMonthCells (t : Node) : List Node :=
  (ownCells "th" t).filter (HasClass "month")

/-- The `td` cells with class `buchbar` of table `t` itself, in document
order. -/
def ownBuchbarCells (t : Node) : List Node :=
  (ownCells "td" t).filter (HasClass "buchbar")

/-- The month label of table `t` itself: the text of the last of its own
`month` header cells, the empty string when it has none. -/
def ownMonth (t : Node) : String :=
  match (ownMonthCells t).getLast? with
  | some th => Text th
  | none => ""

/-- One slot per `buchbar` cell of table `t` itself, with the month label of
`t` itself. -/
def ownSlots (t : Node) : List Appointment :=
  (ownBuchbarCells t).map (fun td => { Day := Text td, Month := ownMonth t })

/-- The fetch phase goes through in world `w`: both requests are created and
answered, the cookie is there, the status of the appointment response lies
in [200, 300), and reading the body gives the document `doc`. -/
def FetchSucceeds (w : World) (c : checker) (doc : Document) : Prop :=
  ∃ req1 cookieResp req2 appointmentResp err,
    w.NewRequest "GET" c.cookieURL.String = .ok req1 ∧
    w.Do (cookieRequest c req1) = (some cookieResp, none) ∧
    Header.Get cookieResp.Header "Set-Cookie" ≠ "" ∧
    w.NewRequest "GET" c.appointmentURL.String = .ok req2 ∧
    w.Do (appointmentRequest c req2 (Header.Get cookieResp.Header "Set-Cookie")) =
      (some appointmentResp, err) ∧
    200 ≤ appointmentResp.StatusCode ∧ appointmentResp.StatusCode < 300 ∧
    w.NewDocumentFromReader appointmentResp.Body = .ok doc

/-- The requests sent, in order. -/
def sentRequests : List Event → List Request
  | [] => []
  | .Do r :: es => r :: sentRequests es
  | _ :: es => sentRequests es

/-- The bodies handed to the HTML reader, in order. -/
def parsedBodies : List Event → List String
  | [] => []
  | .NewDocumentFromReader b :: es => b :: parsedBodies es
  | _ :: es => parsedBodies es

end checker

/-! ## Concrete documents, worlds and configurations -/

namespace examples

open html goquery http

/-- A table with the header `August`, bookable days 12 and 19, and the day 15
that is not bookable. -/
def augustTable : Node :=
  .element "table" [] [.element "tbody" [] [
    .element "tr" [] [.element "th" ["month"] [.text "August"]],
    .element "tr" [] [
      .element "td" ["buchbar"] [.text "12"],
      .element "td" [] [.text "15"],
      .element "td" ["buchbar"] [.text "19"]]]]

/-- A table with the header `September` and no bookable day. -/
def septemberTable : Node :=
  .element "table" [] [.element "tbody" [] [
    .element "tr" [] [.element "th" ["month"] [.text "September"]],
    .element "tr" [] [.element "td" [] [.text "1"]]]]

/-- A table without header cell, with the bookable day 3. -/
def bareTable : Node :=
  .element "table" [] [.element "tbody" [] [
    .element "tr" [] [.element "td" ["buchbar"] [.text "3"]]]]

/-- A table whose bookable cell holds the text 1 and a second table, which
has the bookable cell 2. -/
def nestedTable : Node :=
  .element "table" [] [.element "tbody" [] [
    .element "tr" [] [.element "td" ["buchbar"] [
      .text "1",
      .element "table" [] [.element "tbody" [] [
        .element "tr" [] [.element "td" ["buchbar"] [.text "2"]]]]]]]]

/-- A table with the header `Outer` and the bookable day 4, one of whose
cells holds a table with the header `Inner` and the bookable day 9. -/
def outerInnerTable : Node :=
  .element "table" [] [.element "tbody" [] [
    .element "tr" [] [.element "th" ["month"] [.text "Outer"]],
    .element "tr" [] [.element "td" ["buchbar"] [.text "4"]],
    .element "tr" [] [.element "td" [] [
      .element "table" [] [.element "tbody" [] [
        .element "tr" [] [.element "th" ["month"] [.text "Inner"]],
        .element "tr" [] [.element "td" ["buchbar"] [.text "9"]]]]]]]]

/-- A table without header cell of its own, with the bookable day 4, one of
whose cells holds a table that has the header `Inner` and no bookable day. -/
def headerInsideTable : Node :=
  .element "table" [] [.element "tbody" [] [
    .element "tr" [] [.element "td" ["buchbar"] [.text "4"]],
    .element "tr" [] [.element "td" [] [
      .element "table" [] [.element "tbody" [] [
        .element "tr" [] [.element "th" ["month"] [.text "Inner"]]]]]]]]

/-- A table with the header `Outer` and no bookable day of its own, one of
whose cells holds a table without header cell, with the bookable day 9. -/
def bareInsideTable : Node :=
  .element "table" [] [.element "tbody" [] [
    .element "tr" [] [.element "th" ["month"] [.text "Outer"]],
    .element "tr" [] [.element "td" [] [
      .element "table" [] [.element "tbody" [] [
        .element "tr" [] [.element "td" ["buchbar"] [.text "9"]]]]]]]]

/-- The page holding the given tables in its body. -/
def page (tables : List Node) : Document :=
  ⟨[.element "html" [] [.element "head" [] [], .element "body" [] tables]]⟩

def exampleChecker : checker.checker :=
  { cfg := ⟨"https://service.example/cookie", "https://service.example/termine"⟩
    cookieURL := ⟨"service.example", "https://service.example/cookie"⟩
    appointmentURL := ⟨"service.example", "https://service.example/termine"⟩ }

/-- The cookie endpoint answers with `Set-Cookie: sid=abc`; the appointment
endpoint, given that cookie, answers with `status` and a body that reads as
`doc`; mail is accepted. -/
def servingWorld (status : Int) (doc : Document) : World :=
  { NewRequest := fun m u => .ok ⟨m, u, []⟩
    Do := fun r =>
      if r.URL = "https://service.example/cookie" then
        (some ⟨302, [("Set-Cookie", ["sid=abc"])], ""⟩, none)
      else if Header.Get r.Header "Cookie" = "sid=abc" then
        (some ⟨status, [], "<html>"⟩, none)
      else (some ⟨403, [], ""⟩, none)
    NewDocumentFromReader := fun _ => .ok doc
    SendMail := fun _ _ _ _ _ => none }

/-- The cookie endpoint answers without any `Set-Cookie` header. -/
def noCookieWorld : World :=
  { NewRequest := fun m u => .ok ⟨m, u, []⟩
    Do := fun _ => (some ⟨200, [("Content-Type", ["text/html"])], ""⟩, none)
    NewDocumentFromReader := fun _ => .ok (page [augustTable])
    SendMail := fun _ _ _ _ _ => none }

/-- The cookie endpoint answers with `Set-Cookie: sid=abc`; the appointment
request fails at transport level: no response, an error. -/
def refusedWorld : World :=
  { NewRequest := fun m u => .ok ⟨m, u, []⟩
    Do := fun r =>
      if r.URL = "https://service.example/cookie" then
        (some ⟨302, [("Set-Cookie", ["sid=abc"])], ""⟩, none)
      else (none, some "dial tcp: connect: connection refused")
    NewDocumentFromReader := fun _ => .ok (page [augustTable])
    SendMail := fun _ _ _ _ _ => none }

/-- As `servingWorld 200 doc`, with a mail server that refuses the mail. -/
def mailRefusedWorld (doc : Document) : World :=
  { servingWorld 200 doc with SendMail := fun _ _ _ _ _ => some "535 authentication failed" }

def exampleNotifier : notifier.smtpNotifier :=
  ⟨{ Address := "mail.example:587", Identity := "", Host := "mail.example",
     From := "me@x", To := ["a@x", "b@y"], Subject := "Termine",
     Username := "me", Password := "secret", MsgURL := "https://service.example" }⟩

def exampleTicker : ticker.ticker :=
  { cfg := ⟨5, 60, exampleChecker.cfg, exampleNotifier.cfg⟩
    checker := exampleChecker
    notifier := exampleNotifier }

end examples

/-! ## Lemmas on the goquery operations and the parsing loops -/

namespace goquery

open html

theorem findWithMatcher_eq (tag : String) (cs : List Node) :
    findWithMatcher tag cs = MatchAllList tag cs := by
  induction cs with
  | nil => simp [findWithMatcher, MatchAllList]
  | cons c cs ih =>
    unfold findWithMatcher at ih ⊢
    cases c <;> simp [List.filter, Node.isElement, MatchAll, MatchAllList, ih]

theorem Find_element (tag d : String) (cl : List String) (cs : List Node) :
    Find tag (.element d cl cs) = MatchAllList tag cs := by
  simp [Find, Node.Children, findWithMatcher_eq]

theorem Document_Find_eq (tag : String) (doc : Document) :
    doc.Find tag = MatchAllList tag doc.Root := by
  simp [Document.Find, findWithMatcher_eq]

end goquery

namespace checker

open html goquery http

theorem foldl_thCallback_filter (l : List Node) (init : String) :
    l.foldl thCallback init =
      (l.filter (HasClass "month")).foldl (fun _ th => Text th) init := by
  induction l generalizing init with
  | nil => rfl
  | cons x xs ih =>
    by_cases hx : HasClass "month" x = true
    · simp [List.filter, hx, thCallback, ih]
    · simp [List.filter, hx, thCallback, ih]

theorem foldl_thCallback_none (t : Node) (h : monthCells t = []) :
    (Find "th" t).foldl thCallback "" = "" := by
  unfold monthCells at h
  rw [foldl_thCallback_filter, h]
  rfl

theorem foldl_thCallback_last (t : Node) (pre : List Node) (hd : Node)
    (h : monthCells t = pre ++ [hd]) :
    (Find "th" t).foldl thCallback "" = Text hd := by
  unfold monthCells at h
  rw [foldl_thCallback_filter, h, List.foldl_append]
  rfl

theorem foldl_tdCallback (month : String) (l : List Node) (acc : List Appointment) :
    l.foldl (tdCallback month) acc =
      acc ++ (l.filter (HasClass "buchbar")).map
        (fun td => { Day := Text td, Month := month }) := by
  induction l generalizing acc with
  | nil => simp
  | cons x xs ih =>
    by_cases hx : HasClass "buchbar" x = true
    · simp [List.filter, hx, tdCallback, ih]
    · simp [List.filter, hx, tdCallback, ih]

theorem tableCallback_eq (acc : List Appointment) (t : Node) :
    tableCallback acc t =
      acc ++ (buchbarCells t).map
        (fun td => { Day := Text td, Month := (Find "th" t).foldl thCallback "" }) := by
  simp [tableCallback, buchbarCells, foldl_tdCallback]

theorem foldl_tableCallback (ts : List Node) (acc : List Appointment) :
    ts.foldl tableCallback acc = acc ++ ts.foldl tableCallback [] := by
  induction ts generalizing acc with
  | nil => simp
  | cons t ts ih =>
    simp only [List.foldl_cons]
    rw [ih (tableCallback acc t), ih (tableCallback [] t), tableCallback_eq acc t,
      tableCallback_eq [] t]
    simp

theorem foldl_tableCallback_days (ts : List Node) :
    (ts.foldl tableCallback []).map Appointment.Day =
      ts.flatMap (fun t => (buchbarCells t).map Text) := by
  induction ts with
  | nil => rfl
  | cons t ts ih =>
    simp only [List.foldl_cons, List.flatMap_cons]
    rw [foldl_tableCallback, List.map_append, ih, tableCallback_eq]
    simp

theorem foldl_tableCallback_headers (hdr : Node → Node) (ts : List Node)
    (h : ∀ t ∈ ts, ∃ pre, monthCells t = pre ++ [hdr t]) :
    ts.foldl tableCallback [] =
      ts.flatMap (fun t => (buchbarCells t).map
        (fun td => { Day := Text td, Month := Text (hdr t) })) := by
  induction ts with
  | nil => rfl
  | cons t ts ih =>
    simp only [List.foldl_cons, List.flatMap_cons]
    obtain ⟨pre, hpre⟩ := h t (List.mem_cons_self t ts)
    rw [foldl_tableCallback, ih (fun u hu => h u (List.mem_cons_of_mem t hu)),
      tableCallback_eq, foldl_thCallback_last t pre (hdr t) hpre]
    simp

theorem length_foldl_tableCallback (ts : List Node) :
    (ts.foldl tableCallback []).length =
      (ts.map (fun t => (buchbarCells t).length)).sum := by
  induction ts with
  | nil => rfl
  | cons t ts ih =>
    simp only [List.foldl_cons, List.map_cons, List.sum_cons]
    rw [foldl_tableCallback, List.length_append, ih, tableCallback_eq]
    simp

mutual
theorem matchAll_td_of_flat : (n : Node) → looseCells n = [] →
    (∀ t ∈ MatchAll "table" n, Find "table" t = []) →
    MatchAll "td" n = (MatchAll "table" n).flatMap (Find "td")
  | .text _, _, _ => by simp [MatchAll]
  | .comment _, _, _ => by simp [MatchAll]
  | .doctype _, _, _ => by simp [MatchAll]
  | .element d cl cs, hl, hn => by
    by_cases hd : d = "table"
    · subst hd
      have h0 : MatchAllList "table" cs = [] := by
        have := hn (.element "table" cl cs) (by simp [MatchAll])
        rwa [Find_element] at this
      simp [MatchAll, h0, Find_element]
    · have hl2 : d ≠ "td" ∧ looseCellsList cs = [] := by
        simp only [looseCells, if_neg hd] at hl
        by_cases htd : d = "td"
        · simp [htd] at hl
        · simpa [htd] using hl
      have hn2 : ∀ t ∈ MatchAllList "table" cs, Find "table" t = [] := by
        intro t ht
        exact hn t (by simp [MatchAll, hd, ht])
      have ih := matchAllList_td_of_flat cs hl2.2 hn2
      simp [MatchAll, hd, hl2.1, ih]
theorem matchAllList_td_of_flat : (cs : List Node) → looseCellsList cs = [] →
    (∀ t ∈ MatchAllList "table" cs, Find "table" t = []) →
    MatchAllList "td" cs = (MatchAllList "table" cs).flatMap (Find "td")
  | [], _, _ => by simp [MatchAllList]
  | c :: cs, hl, hn => by
    have hl2 : looseCells c = [] ∧ looseCellsList cs = [] := by
      simpa [looseCellsList] using hl
    have h1 := matchAll_td_of_flat c hl2.1
      (fun t ht => hn t (by simp [MatchAllList, ht]))
    have h2 := matchAllList_td_of_flat cs hl2.2
      (fun t ht => hn t (by simp [MatchAllList, ht]))
    simp [MatchAllList, h1, h2]
end

mutual
theorem ownMatch_eq_MatchAll (tag : String) : (n : Node) → MatchAll "table" n = [] →
    ownMatch tag n = MatchAll tag n
  | .text _, _ => by simp [MatchAll, ownMatch]
  | .comment _, _ => by simp [MatchAll, ownMatch]
  | .doctype _, _ => by simp [MatchAll, ownMatch]
  | .element d cl cs, h => by
    by_cases hd : d = "table"
    · simp [MatchAll, hd] at h
    · have h0 : MatchAllList "table" cs = [] := by simpa [MatchAll, hd] using h
      simp [ownMatch, MatchAll, hd, ownMatchList_eq_MatchAllList tag cs h0]
theorem ownMatchList_eq_MatchAllList (tag : String) : (cs : List Node) →
    MatchAllList "table" cs = [] → ownMatchList tag cs = MatchAllList tag cs
  | [], _ => by simp [MatchAllList, ownMatchList]
  | c :: cs, h => by
    have h2 : MatchAll "table" c = [] ∧ MatchAllList "table" cs = [] := by
      simpa [MatchAllList] using h
    simp [MatchAllList, ownMatchList, ownMatch_eq_MatchAll tag c h2.1,
      ownMatchList_eq_MatchAllList tag cs h2.2]
end

/-- In a table that holds no other table, the cells of the table itself are
the cells `Find` selects in it. -/
theorem ownCells_eq_Find (tag : String) (t : Node) (h : Find "table" t = []) :
    ownCells tag t = Find tag t := by
  unfold Find at h ⊢
  rw [findWithMatcher_eq] at h ⊢
  exact ownMatchList_eq_MatchAllList tag t.Children h

theorem flatMap_congr_mem {α β : Type} (l : List α) (f g : α → List β)
    (h : ∀ x ∈ l, f x = g x) : l.flatMap f = l.flatMap g := by
  induction l with
  | nil => rfl
  | cons x xs ih =>
    simp only [List.flatMap_cons]
    rw [h x (List.mem_cons_self x xs), ih (fun y hy => h y (List.mem_cons_of_mem x hy))]

theorem foldl_thCallback_getLast (t : Node) :
    (Find "th" t).foldl thCallback "" =
      match (monthCells t).getLast? with
      | some th => Text th
      | none => "" := by
  rcases List.eq_nil_or_concat (monthCells t) with h | ⟨pre, hd, h⟩
  · rw [foldl_thCallback_none t h, h]
    rfl
  · rw [List.concat_eq_append] at h
    rw [foldl_thCallback_last t pre hd h, h]
    simp

/-- The pass over a table that holds no other table appends the slots of the
table itself. -/
theorem tableCallback_flat (acc : List Appointment) (t : Node)
    (h : Find "table" t = []) : tableCallback acc t = acc ++ ownSlots t := by
  rw [tableCallback_eq, foldl_thCallback_getLast]
  unfold ownSlots ownMonth ownMonthCells ownBuchbarCells
  rw [ownCells_eq_Find "th" t h, ownCells_eq_Find "td" t h]
  rfl

theorem foldl_tableCallback_flat (ts : List Node)
    (h : ∀ t ∈ ts, Find "table" t = []) :
    ts.foldl tableCallback [] = ts.flatMap ownSlots := by
  induction ts with
  | nil => rfl
  | cons t ts ih =>
    simp only [List.foldl_cons, List.flatMap_cons]
    rw [foldl_tableCallback, ih (fun u hu => h u (List.mem_cons_of_mem t hu)),
      tableCallback_flat [] t (h t (List.mem_cons_self t ts))]
    simp

theorem GetAppointments_of_fetchSucceeds (w : World) (c : checker) (doc : Document)
    (h : FetchSucceeds w c doc) :
    (GetAppointments w c).1 = .returned (parseDocument doc, none) := by
  obtain ⟨req1, cookieResp, req2, appointmentResp, err, h1, h2, h3, h4, h5, h6, h7, h8⟩ := h
  have hst : ¬ (appointmentResp.StatusCode < 200 ∨ appointmentResp.StatusCode ≥ 300) := by
    omega
  simp [GetAppointments, h1, h2, h3, h4, h5, hst, h8]

end checker

/-! ## The parsing part of GetAppointments -/

namespace checker

open html goquery http examples

/-- Claim C1, as stated, fails on a page with a table inside a cell of another
table. The outer table has the header `Outer` and the bookable day 4, the
inner table the header `Inner` and the bookable day 9: one header and one
`buchbar` cell each. Three slots come back, not two, all with the month
`Inner`; no slot carries the day 4 with the month `Outer`. -/
theorem count_and_month_nested_tables_counterexample :
    ((page [outerInnerTable]).Find "table").map
        (fun t => (ownMonthCells t).map Text) = [["Outer"], ["Inner"]] ∧
      ((page [outerInnerTable]).Find "table").map
        (fun t => (ownBuchbarCells t).map Text) = [["4"], ["9"]] ∧
      parseDocument (page [outerInnerTable]) =
        [⟨"4", "Inner"⟩, ⟨"9", "Inner"⟩, ⟨"9", "Inner"⟩] ∧
      (parseDocument (page [outerInnerTable])).length ≠
        (((page [outerInnerTable]).Find "table").map
          (fun t => (ownBuchbarCells t).length)).sum ∧
      (⟨"4", "Outer"⟩ : Appointment) ∉ parseDocument (page [outerInnerTable]) := by
  refine ⟨by decide, by decide, by decide, by decide, by decide⟩

/-- Claim C1, amended. In general: when every table element of the document
has a `th` cell with class `month` among its descendants (`hdr t` the last of
them), the slot list has as many elements as the tables have `buchbar` cells
among their descendants, summed over all table elements; it consists, table
after table, of one slot per such cell, with the text of `hdr t`; and a table
with no such cell leaves the slot list as it was. When no table lies inside
another table, `hdr t` is the last month header of `t` itself and all of this
holds with the cells of each table itself: one slot per `buchbar` cell of the
document, carrying the month header of its own table. -/
theorem parseDocument_count_and_month (doc : Document) (hdr : Node → Node)
    (h : ∀ t ∈ doc.Find "table", ∃ pre, monthCells t = pre ++ [hdr t]) :
    ((parseDocument doc).length =
          ((doc.Find "table").map (fun t => (buchbarCells t).length)).sum ∧
        parseDocument doc =
          (doc.Find "table").flatMap (fun t => (buchbarCells t).map
            (fun td => { Day := Text td, Month := Text (hdr t) })) ∧
        (∀ t ∈ doc.Find "table", buchbarCells t = [] →
          ∀ acc, tableCallback acc t = acc)) ∧
      ((∀ t ∈ doc.Find "table", Find "table" t = []) →
        (∀ t ∈ doc.Find "table", ∃ pre, ownMonthCells t = pre ++ [hdr t]) ∧
          (parseDocument doc).length =
            ((doc.Find "table").map (fun t => (ownBuchbarCells t).length)).sum ∧
          parseDocument doc =
            (doc.Find "table").flatMap (fun t => (ownBuchbarCells t).map
              (fun td => { Day := Text td, Month := Text (hdr t) })) ∧
          (∀ t ∈ doc.Find "table", ownBuchbarCells t = [] →
            ∀ acc, tableCallback acc t = acc)) := by
  have hgen : ∀ t, buchbarCells t = [] → ∀ acc, tableCallback acc t = acc := by
    intro t hk acc
    rw [tableCallback_eq, hk]
    simp
  refine ⟨⟨length_foldl_tableCallback _, foldl_tableCallback_headers hdr _ h,
    fun t _ hk acc => hgen t hk acc⟩, ?_⟩
  intro hflat
  have hm : ∀ t ∈ doc.Find "table", ownMonthCells t = monthCells t := by
    intro t ht
    unfold ownMonthCells monthCells
    rw [ownCells_eq_Find "th" t (hflat t ht)]
  have hb : ∀ t ∈ doc.Find "table", ownBuchbarCells t = buchbarCells t := by
    intro t ht
    unfold ownBuchbarCells buchbarCells
    rw [ownCells_eq_Find "td" t (hflat t ht)]
  refine ⟨?_, ?_, ?_, ?_⟩
  · intro t ht
    rw [hm t ht]
    exact h t ht
  · unfold parseDocument
    rw [length_foldl_tableCallback]
    congr 1
    exact List.map_congr_left (fun t ht => by rw [hb t ht])
  · unfold parseDocument
    rw [foldl_tableCallback_headers hdr _ h]
    exact flatMap_congr_mem _ _ _ (fun t ht => by rw [hb t ht])
  · intro t ht hk acc
    rw [hb t ht] at hk
    exact hgen t hk acc

theorem parseDocument_count_and_month_witness :
    (parseDocument (page [augustTable, septemberTable])).length = 2 + 0 ∧
      parseDocument (page [augustTable, septemberTable]) =
        [⟨"12", "August"⟩, ⟨"19", "August"⟩] ∧
      tableCallback [⟨"12", "August"⟩, ⟨"19", "August"⟩] septemberTable =
        [⟨"12", "August"⟩, ⟨"19", "August"⟩] := by
  have hfind : (page [augustTable, septemberTable]).Find "table" =
      [augustTable, septemberTable] := by rfl
  have h := parseDocument_count_and_month (page [augustTable, septemberTable])
    (fun t => (monthCells t).getLastD (.text ""))
    (by
      intro t ht
      rw [hfind] at ht
      simp only [List.mem_cons, List.mem_singleton, List.not_mem_nil, or_false] at ht
      rcases ht with rfl | rfl
      · exact ⟨[], rfl⟩
      · exact ⟨[], rfl⟩)
  have hflat : ∀ t ∈ (page [augustTable, septemberTable]).Find "table",
      Find "table" t = [] := by
    intro t ht
    rw [hfind] at ht
    simp only [List.mem_cons, List.mem_singleton, List.not_mem_nil, or_false] at ht
    rcases ht with rfl | rfl
    · rfl
    · rfl
  have hown := h.2 hflat
  refine ⟨hown.2.1.trans (by decide), hown.2.2.1.trans (by decide), ?_⟩
  exact hown.2.2.2 septemberTable (by rw [hfind]; simp) (by rfl) _

/-- Claim C3, as stated, fails on pages with a table inside a cell of another
table. On the first page the outer table has no header cell of its own and
the bookable day 4, and the table inside it has the header `Inner`: the only
slot is day 4 with the month `Inner`, none has the empty month. On the second
page the outer table has the header `Outer`, the table inside it no header
and the bookable day 9: that cell gives a slot with the month `Outer` next to
the one with the empty month. -/
theorem month_carried_over_nested_tables_counterexample :
    (((page [headerInsideTable]).Find "table").map
        (fun t => ((ownMonthCells t).map Text, (ownBuchbarCells t).map Text)) =
          [([], ["4"]), (["Inner"], [])] ∧
        parseDocument (page [headerInsideTable]) = [⟨"4", "Inner"⟩] ∧
        (⟨"4", ""⟩ : Appointment) ∉ parseDocument (page [headerInsideTable])) ∧
      (((page [bareInsideTable]).Find "table").map
        (fun t => ((ownMonthCells t).map Text, (ownBuchbarCells t).map Text)) =
          [(["Outer"], []), ([], ["9"])] ∧
        parseDocument (page [bareInsideTable]) = [⟨"9", "Outer"⟩, ⟨"9", ""⟩] ∧
        (⟨"9", "Outer"⟩ : Appointment) ∈ parseDocument (page [bareInsideTable])) := by
  refine ⟨⟨by decide, by decide, by decide⟩, ⟨by decide, by decide, by decide⟩⟩

/-- Claim C3, amended. When no table of the document lies inside another
table, a table `t` without `th` cell of class `month` contributes exactly one
slot per `buchbar` cell of its own, each with the empty string as Month,
whatever tables stand before and after it and whatever headers they carry;
the slots before and after are those of the other tables, built from their
own cells and their own headers. In general the pass over `t` reads the cells
among all descendants of `t`: when none of them is a `th` with class `month`,
every `buchbar` cell among them gets a slot with the empty Month in that
pass. -/
theorem month_empty_without_header (doc : Document) (pre post : List Node) (t : Node)
    (hsplit : doc.Find "table" = pre ++ t :: post) :
    ((∀ u ∈ doc.Find "table", Find "table" u = []) → ownMonthCells t = [] →
        parseDocument doc =
          pre.flatMap ownSlots ++
            (ownBuchbarCells t).map (fun td => { Day := Text td, Month := "" }) ++
            post.flatMap ownSlots) ∧
      (monthCells t = [] →
        parseDocument doc =
          pre.foldl tableCallback [] ++
            (buchbarCells t).map (fun td => { Day := Text td, Month := "" }) ++
            post.foldl tableCallback []) := by
  constructor
  · intro hflat hno
    unfold parseDocument
    rw [foldl_tableCallback_flat _ hflat, hsplit, List.flatMap_append, List.flatMap_cons]
    have hs : ownSlots t =
        (ownBuchbarCells t).map (fun td => { Day := Text td, Month := "" }) := by
      unfold ownSlots ownMonth
      rw [hno]
      rfl
    rw [hs, List.append_assoc]
  · intro hno
    unfold parseDocument
    rw [hsplit, List.foldl_append, List.foldl_cons, foldl_tableCallback post,
      tableCallback_eq, foldl_thCallback_none t hno]

theorem month_empty_without_header_witness :
    parseDocument (page [augustTable, bareTable]) =
      [⟨"12", "August"⟩, ⟨"19", "August"⟩, ⟨"3", ""⟩] := by
  have hflat : ∀ u ∈ (page [augustTable, bareTable]).Find "table",
      Find "table" u = [] := by
    intro u hu
    have hfind : (page [augustTable, bareTable]).Find "table" =
        [augustTable, bareTable] := by rfl
    rw [hfind] at hu
    simp only [List.mem_cons, List.mem_singleton, List.not_mem_nil, or_false] at hu
    rcases hu with rfl | rfl
    · rfl
    · rfl
  exact ((month_empty_without_header (page [augustTable, bareTable]) [augustTable] []
    bareTable (by rfl)).1 hflat (by rfl)).trans (by decide)

/-- Claim C2, as stated, fails on a page with a table inside a bookable cell of
another table: the fetch succeeds, the page has two `buchbar` cells with the
texts 12 and 2, and three slots come back, with the days 12, 2 and 2. -/
theorem days_nested_tables_counterexample :
    FetchSucceeds (servingWorld 200 (page [nestedTable])) exampleChecker
        (page [nestedTable]) ∧
      (GetAppointments (servingWorld 200 (page [nestedTable])) exampleChecker).1 =
        .returned ([⟨"12", ""⟩, ⟨"2", ""⟩, ⟨"2", ""⟩], none) ∧
      (((page [nestedTable]).Find "td").filter (HasClass "buchbar")).map Text =
        ["12", "2"] ∧
      ([⟨"12", ""⟩, ⟨"2", ""⟩, ⟨"2", ""⟩] : List Appointment).map Appointment.Day ≠
        (((page [nestedTable]).Find "td").filter (HasClass "buchbar")).map Text := by
  refine ⟨⟨_, _, _, _, _, rfl, rfl, by decide, rfl, rfl, by decide, by decide, rfl⟩,
    by decide, by decide, by decide⟩

/-- Claim C2, amended: after a successful fetch the Day fields of the returned
slots are, for each table element of the document in document order (a table
inside another table included), the texts of the `buchbar` cells that table
contains, in order; cells without the class give no slot. When every `td`
lies in a table and no table lies in another table, these are exactly the
texts of the `buchbar` cells of the document in document order. -/
theorem days_of_successful_fetch (w : World) (c : checker) (doc : Document)
    (h : FetchSucceeds w c doc) :
    ∃ slots, (GetAppointments w c).1 = .returned (slots, none) ∧
      slots.map Appointment.Day =
        (doc.Find "table").flatMap (fun t => (buchbarCells t).map Text) ∧
      (looseCellsList doc.Root = [] →
        (∀ t ∈ doc.Find "table", Find "table" t = []) →
        slots.map Appointment.Day =
          ((doc.Find "td").filter (HasClass "buchbar")).map Text) := by
  refine ⟨parseDocument doc, GetAppointments_of_fetchSucceeds w c doc h,
    foldl_tableCallback_days _, ?_⟩
  intro hloose hflat
  unfold parseDocument
  rw [foldl_tableCallback_days]
  rw [Document_Find_eq] at hflat
  rw [Document_Find_eq "td", matchAllList_td_of_flat doc.Root hloose hflat,
    Document_Find_eq "table"]
  simp [buchbarCells, List.filter_flatMap, List.map_flatMap]

theorem days_of_successful_fetch_witness :
    FetchSucceeds (servingWorld 200 (page [augustTable])) exampleChecker
        (page [augustTable]) ∧
      (GetAppointments (servingWorld 200 (page [augustTable])) exampleChecker).1 =
        .returned ([⟨"12", "August"⟩, ⟨"19", "August"⟩], none) ∧
      ∃ slots, (GetAppointments (servingWorld 200 (page [augustTable])) exampleChecker).1 =
          .returned (slots, none) ∧
        slots.map Appointment.Day = ["12", "19"] := by
  have hf : FetchSucceeds (servingWorld 200 (page [augustTable])) exampleChecker
      (page [augustTable]) :=
    ⟨_, _, _, _, _, rfl, rfl, by decide, rfl, rfl, by decide, by decide, rfl⟩
  refine ⟨hf, by decide, ?_⟩
  obtain ⟨slots, h1, _, h3⟩ := days_of_successful_fetch _ _ _ hf
  refine ⟨slots, h1, (h3 (by rfl) ?_).trans (by decide)⟩
  intro t ht
  have hfind : (page [augustTable]).Find "table" = [augustTable] := by rfl
  rw [hfind] at ht
  simp only [List.mem_singleton] at ht
  subst ht
  rfl

end checker

/-! ## The fetch phase of GetAppointments -/

namespace checker

open html goquery http examples

/-- A header map with no value, or an empty first value, under `Set-Cookie`
answers `Get` with the empty string. -/
theorem Header_Get_empty (h : Header)
    (hv : ∀ v vs, h.lookup "Set-Cookie" = some (v :: vs) → v = "") :
    Header.Get h "Set-Cookie" = "" := by
  have hk : CanonicalHeaderKey "Set-Cookie" = "Set-Cookie" := by decide
  unfold Header.Get
  rw [hk]
  cases hl : h.lookup "Set-Cookie" with
  | none => rfl
  | some l =>
    cases l with
    | nil => rfl
    | cons v vs => exact hv v vs hl

/-- Claim C4 fails on the code. The cookie request is answered with
`Set-Cookie: sid=abc`, the appointment request fails at transport level (no
response, an error): `GetAppointments` dereferences the nil response and
panics, both requests having been sent, and `Run` ends in that panic without
polling the next world. -/
theorem GetAppointments_panics_on_transport_failure :
    refusedWorld.Do (appointmentRequest exampleChecker
        ⟨"GET", "https://service.example/termine", []⟩ "sid=abc") =
        (none, some "dial tcp: connect: connection refused") ∧
      GetAppointments refusedWorld exampleChecker =
        (.panicked nilDereference,
          [.Do ⟨"GET", "https://service.example/cookie", [("Host", ["service.example"])]⟩,
           .Do ⟨"GET", "https://service.example/termine",
              [("Cookie", ["sid=abc"]), ("Host", ["service.example"])]⟩]) ∧
      ticker.Run exampleTicker [refusedWorld, servingWorld 200 (page [augustTable])] =
        [.Tick, .GetAppointments,
         .Do ⟨"GET", "https://service.example/cookie", [("Host", ["service.example"])]⟩,
         .Do ⟨"GET", "https://service.example/termine",
            [("Cookie", ["sid=abc"]), ("Host", ["service.example"])]⟩,
         .Panic nilDereference] := by
  refine ⟨by decide, by decide, by decide⟩

/-- Whenever the appointment request comes back without a response, the call
panics. -/
theorem GetAppointments_panics_without_response (w : World) (c : checker)
    (req1 req2 : Request) (cookieResp : Response) (e : Option Error)
    (h1 : w.NewRequest "GET" c.cookieURL.String = .ok req1)
    (h2 : w.Do (cookieRequest c req1) = (some cookieResp, none))
    (h3 : Header.Get cookieResp.Header "Set-Cookie" ≠ "")
    (h4 : w.NewRequest "GET" c.appointmentURL.String = .ok req2)
    (h5 : w.Do (appointmentRequest c req2 (Header.Get cookieResp.Header "Set-Cookie")) =
      (none, e)) :
    (GetAppointments w c).1 = .panicked nilDereference := by
  simp [GetAppointments, h1, h2, h3, h4, h5]

/-- Claim C5: when the cookie response has no `Set-Cookie` header, or an
empty value under it, `GetAppointments` returns an error and no slots, and
the requests it sent are the cookie request alone. -/
theorem missing_cookie_stops_the_fetch (w : World) (c : checker) (req1 : Request)
    (cookieResp : Response) (e : Option Error)
    (h1 : w.NewRequest "GET" c.cookieURL.String = .ok req1)
    (h2 : w.Do (cookieRequest c req1) = (some cookieResp, e))
    (h3 : ∀ v vs, cookieResp.Header.lookup "Set-Cookie" = some (v :: vs) → v = "") :
    (∃ err, (GetAppointments w c).1 = .returned ([], some err)) ∧
      sentRequests (GetAppointments w c).2 = [cookieRequest c req1] := by
  have hget := Header_Get_empty cookieResp.Header h3
  cases e with
  | none => simp [GetAppointments, h1, h2, hget, sentRequests]
  | some err => simp [GetAppointments, h1, h2, sentRequests]

theorem missing_cookie_stops_the_fetch_witness :
    (∃ err, (GetAppointments noCookieWorld exampleChecker).1 = .returned ([], some err)) ∧
      sentRequests (GetAppointments noCookieWorld exampleChecker).2 =
        [⟨"GET", "https://service.example/cookie", [("Host", ["service.example"])]⟩] :=
  missing_cookie_stops_the_fetch noCookieWorld exampleChecker
    ⟨"GET", "https://service.example/cookie", []⟩
    ⟨200, [("Content-Type", ["text/html"])], ""⟩ none (by rfl) (by rfl)
    (fun v vs h => by cases h)

/-- Claim C6: with a cookie response that carries a non-empty `Set-Cookie`
header and an appointment response that was received, `GetAppointments`
returns an error with the body never handed to the HTML reader if and only if
the status code of the appointment response is below 200 or at least 300. -/
theorem status_outside_2xx_iff_error_before_parsing (w : World) (c : checker)
    (req1 req2 : Request) (cookieResp appointmentResp : Response) (e : Option Error)
    (h1 : w.NewRequest "GET" c.cookieURL.String = .ok req1)
    (h2 : w.Do (cookieRequest c req1) = (some cookieResp, none))
    (h3 : Header.Get cookieResp.Header "Set-Cookie" ≠ "")
    (h4 : w.NewRequest "GET" c.appointmentURL.String = .ok req2)
    (h5 : w.Do (appointmentRequest c req2 (Header.Get cookieResp.Header "Set-Cookie")) =
      (some appointmentResp, e)) :
    ((∃ err, (GetAppointments w c).1 = .returned ([], some err)) ∧
        parsedBodies (GetAppointments w c).2 = []) ↔
      (appointmentResp.StatusCode < 200 ∨ appointmentResp.StatusCode ≥ 300) := by
  by_cases hst : appointmentResp.StatusCode < 200 ∨ appointmentResp.StatusCode ≥ 300
  · simp [GetAppointments, h1, h2, h3, h4, h5, hst, parsedBodies]
  · simp only [hst, iff_false, not_and]
    intro _
    cases hdoc : w.NewDocumentFromReader appointmentResp.Body <;>
      simp [GetAppointments, h1, h2, h3, h4, h5, hst, hdoc, parsedBodies]

theorem status_outside_2xx_iff_error_before_parsing_witness :
    ((∃ err, (GetAppointments (servingWorld 404 (page [augustTable])) exampleChecker).1 =
          .returned ([], some err)) ∧
        parsedBodies (GetAppointments (servingWorld 404 (page [augustTable]))
          exampleChecker).2 = []) ∧
      ((∃ err, (GetAppointments (servingWorld 300 (page [augustTable])) exampleChecker).1 =
          .returned ([], some err)) ∧
        parsedBodies (GetAppointments (servingWorld 300 (page [augustTable]))
          exampleChecker).2 = []) ∧
      ¬ ((∃ err, (GetAppointments (servingWorld 200 (page [augustTable])) exampleChecker).1 =
          .returned ([], some err)) ∧
        parsedBodies (GetAppointments (servingWorld 200 (page [augustTable]))
          exampleChecker).2 = []) ∧
      ¬ ((∃ err, (GetAppointments (servingWorld 299 (page [augustTable])) exampleChecker).1 =
          .returned ([], some err)) ∧
        parsedBodies (GetAppointments (servingWorld 299 (page [augustTable]))
          exampleChecker).2 = []) := by
  have key : ∀ status : Int,
      ((∃ err, (GetAppointments (servingWorld status (page [augustTable]))
            exampleChecker).1 = .returned ([], some err)) ∧
          parsedBodies (GetAppointments (servingWorld status (page [augustTable]))
            exampleChecker).2 = []) ↔ (status < 200 ∨ status ≥ 300) :=
    fun status =>
      status_outside_2xx_iff_error_before_parsing
        (servingWorld status (page [augustTable])) exampleChecker
        ⟨"GET", "https://service.example/cookie", []⟩
        ⟨"GET", "https://service.example/termine", []⟩
        ⟨302, [("Set-Cookie", ["sid=abc"])], ""⟩ ⟨status, [], "<html>"⟩ none
        (by rfl) (by rfl) (by decide) (by rfl) (by rfl)
  exact ⟨(key 404).2 (by decide), (key 300).2 (by decide),
    fun h => absurd ((key 200).1 h) (by decide),
    fun h => absurd ((key 299).1 h) (by decide)⟩

/-- The trace of `GetAppointments` holds requests, reads of a body and log
lines, nothing else. -/
theorem GetAppointments_trace (w : World) (c : checker) :
    ∀ ev ∈ (GetAppointments w c).2,
      (∃ r, ev = .Do r) ∨ (∃ b, ev = .NewDocumentFromReader b) ∨
        (∃ m err, ev = .Errorf m err) := by
  intro ev hev
  cases h1 : w.NewRequest "GET" c.cookieURL.String with
  | error err =>
    simp [GetAppointments, h1] at hev
    simp [hev]
  | ok req1 =>
    rcases h2 : w.Do (cookieRequest c req1) with ⟨_ | cookieResp, _ | err⟩
    · simp [GetAppointments, h1, h2] at hev
      simp [hev]
    · simp [GetAppointments, h1, h2] at hev
      rcases hev with rfl | rfl <;> simp
    · by_cases h3 : Header.Get cookieResp.Header "Set-Cookie" = ""
      · simp [GetAppointments, h1, h2, h3] at hev
        rcases hev with rfl | rfl <;> simp
      · cases h4 : w.NewRequest "GET" c.appointmentURL.String with
        | error err =>
          simp [GetAppointments, h1, h2, h3, h4] at hev
          rcases hev with rfl | rfl <;> simp
        | ok req2 =>
          rcases h5 : w.Do (appointmentRequest c req2
              (Header.Get cookieResp.Header "Set-Cookie")) with ⟨_ | appointmentResp, e⟩
          · simp [GetAppointments, h1, h2, h3, h4, h5] at hev
            rcases hev with rfl | rfl <;> simp
          · by_cases hst : appointmentResp.StatusCode < 200 ∨
                appointmentResp.StatusCode ≥ 300
            · simp [GetAppointments, h1, h2, h3, h4, h5, hst] at hev
              rcases hev with rfl | rfl | rfl <;> simp
            · cases h6 : w.NewDocumentFromReader appointmentResp.Body with
              | error err =>
                simp [GetAppointments, h1, h2, h3, h4, h5, hst, h6] at hev
                rcases hev with rfl | rfl | rfl | rfl <;> simp
              | ok doc =>
                simp [GetAppointments, h1, h2, h3, h4, h5, hst, h6] at hev
                rcases hev with rfl | rfl | rfl <;> simp
    · simp [GetAppointments, h1, h2] at hev
      rcases hev with rfl | rfl <;> simp

end checker

/-! ## The scheduler loop -/

namespace ticker

open examples

theorem notifyCalls_append (xs ys : List Event) :
    notifyCalls (xs ++ ys) = notifyCalls xs ++ notifyCalls ys := by
  induction xs with
  | nil => rfl
  | cons x xs ih => cases x <;> simp [notifyCalls, ih]

theorem cooldownWaits_append (xs ys : List Event) :
    cooldownWaits (xs ++ ys) = cooldownWaits xs ++ cooldownWaits ys := by
  induction xs with
  | nil => rfl
  | cons x xs ih => cases x <;> simp [cooldownWaits, ih]

theorem mem_notifyCalls (xs : List Event) (a : List checker.Appointment) :
    a ∈ notifyCalls xs ↔ Event.Notify a ∈ xs := by
  induction xs with
  | nil => simp [notifyCalls]
  | cons x xs ih => cases x <;> simp [notifyCalls, ih]

theorem mem_cooldownWaits (xs : List Event) (d : Int) :
    d ∈ cooldownWaits xs ↔ Event.After d ∈ xs := by
  induction xs with
  | nil => simp [cooldownWaits]
  | cons x xs ih => cases x <;> simp [cooldownWaits, ih]

theorem notifyCalls_GetAppointments (w : World) (c : checker.checker) :
    notifyCalls (checker.GetAppointments w c).2 = [] := by
  apply List.eq_nil_iff_forall_not_mem.2
  intro a ha
  rw [mem_notifyCalls] at ha
  rcases checker.GetAppointments_trace w c _ ha with ⟨_, h⟩ | ⟨_, h⟩ | ⟨_, _, h⟩ <;>
    cases h

theorem cooldownWaits_GetAppointments (w : World) (c : checker.checker) :
    cooldownWaits (checker.GetAppointments w c).2 = [] := by
  apply List.eq_nil_iff_forall_not_mem.2
  intro a ha
  rw [mem_cooldownWaits] at ha
  rcases checker.GetAppointments_trace w c _ ha with ⟨_, h⟩ | ⟨_, h⟩ | ⟨_, _, h⟩ <;>
    cases h

/-- The three observations of one pass, by the value `GetAppointments` handed
back: the notifier calls, the cooldown waits, and whether the loop goes on. -/
theorem iteration_observed (t : ticker) (w : World) :
    (notifyCalls (iteration t w).2, cooldownWaits (iteration t w).2, (iteration t w).1) =
      match (checker.GetAppointments w t.checker).1 with
      | .panicked _ => ([], [], false)
      | .returned (_, some _) => ([], [], true)
      | .returned ([], none) => ([], [], true)
      | .returned (a :: as, none) =>
          ([a :: as], [time.Seconds t.cfg.RepeatIntervalInSeconds], true) := by
  have hn := notifyCalls_GetAppointments w t.checker
  have hc := cooldownWaits_GetAppointments w t.checker
  unfold iteration
  rcases hg : checker.GetAppointments w t.checker with ⟨_ | m, tr⟩
  · rename_i value
    rw [hg] at hn hc
    simp only at hn hc
    rcases value with ⟨apps, _ | err⟩
    · cases apps with
      | nil =>
        simp [notifyCalls_append, cooldownWaits_append, hn, hc, notifyCalls, cooldownWaits]
      | cons a as =>
        cases hs : w.SendMail t.notifier.cfg.Address
            ⟨t.notifier.cfg.Identity, t.notifier.cfg.Username, t.notifier.cfg.Password,
              t.notifier.cfg.Host⟩
            t.notifier.cfg.From t.notifier.cfg.To (notifier.msg t.notifier (a :: as)) <;>
          simp [notifier.Notify, hs, notifyCalls_append, cooldownWaits_append, hn, hc,
            notifyCalls, cooldownWaits]
    · simp [notifyCalls_append, cooldownWaits_append, hn, hc, notifyCalls, cooldownWaits]
  · rw [hg] at hn hc
    simp only at hn hc
    simp [notifyCalls_append, cooldownWaits_append, hn, hc, notifyCalls, cooldownWaits]

/-- Claim C7: every pass of the loop of `Run` is one `iteration`. In it the
notifier is called with a slot list if and only if `GetAppointments` returned
that list without error and the list is not empty; when it is called, it is
called once in that pass, with that list. -/
theorem notifier_invoked_iff_slots_found (t : ticker) (w : World) (ws : List World) :
    loop t (w :: ws) =
        (iteration t w).2 ++ (if (iteration t w).1 then loop t ws else []) ∧
      (∀ apps, Event.Notify apps ∈ (iteration t w).2 ↔
        ((checker.GetAppointments w t.checker).1 = .returned (apps, none) ∧ apps ≠ [])) ∧
      (∀ apps, Event.Notify apps ∈ (iteration t w).2 →
        notifyCalls (iteration t w).2 = [apps]) := by
  have hobs := iteration_observed t w
  have key : ∀ apps, Event.Notify apps ∈ (iteration t w).2 →
      ((checker.GetAppointments w t.checker).1 = .returned (apps, none) ∧ apps ≠ []) ∧
        notifyCalls (iteration t w).2 = [apps] := by
    intro apps happs
    rw [← mem_notifyCalls] at happs
    rcases hg : (checker.GetAppointments w t.checker).1 with ⟨as, _ | err⟩ | m
    · cases as with
      | nil =>
        rw [hg] at hobs
        simp only [Prod.mk.injEq] at hobs
        rw [hobs.1] at happs
        cases happs
      | cons a as =>
        rw [hg] at hobs
        simp only [Prod.mk.injEq] at hobs
        rw [hobs.1] at happs ⊢
        simp only [List.mem_singleton] at happs
        subst happs
        simp
    · rw [hg] at hobs
      simp only [Prod.mk.injEq] at hobs
      rw [hobs.1] at happs
      cases happs
    · rw [hg] at hobs
      simp only [Prod.mk.injEq] at hobs
      rw [hobs.1] at happs
      cases happs
  refine ⟨?_, fun apps => ⟨fun h => (key apps h).1, ?_⟩, fun apps h => (key apps h).2⟩
  · simp only [loop]
    rcases iteration t w with ⟨_ | _, tr⟩ <;> simp
  · rintro ⟨hg, hne⟩
    rw [← mem_notifyCalls]
    rw [hg] at hobs
    cases apps with
    | nil => exact absurd rfl hne
    | cons a as =>
      simp only [Prod.mk.injEq] at hobs
      rw [hobs.1]
      simp

theorem notifier_invoked_iff_slots_found_witness :
    notifyCalls (iteration exampleTicker (servingWorld 200 (page [augustTable]))).2 =
        [[⟨"12", "August"⟩, ⟨"19", "August"⟩]] ∧
      notifyCalls (iteration exampleTicker (servingWorld 200 (page [septemberTable]))).2 = [] ∧
      notifyCalls (iteration exampleTicker (servingWorld 404 (page [augustTable]))).2 = [] :=
  ⟨(notifier_invoked_iff_slots_found exampleTicker (servingWorld 200 (page [augustTable]))
      []).2.2 [⟨"12", "August"⟩, ⟨"19", "August"⟩] (by decide),
    by decide, by decide⟩

/-- Claim C8: in one pass of the loop a cooldown wait happens if and only if
the notifier was called in that pass; when the notifier was called there is
exactly one wait, of `RepeatIntervalInSeconds` seconds, whatever `Notify`
returned; after a fetch error or an empty result there is no wait and the
loop goes on to its next tick. -/
theorem cooldown_iff_notifier_invoked (t : ticker) (w : World) :
    ((∃ d, Event.After d ∈ (iteration t w).2) ↔
        (∃ apps, Event.Notify apps ∈ (iteration t w).2)) ∧
      (∀ apps, Event.Notify apps ∈ (iteration t w).2 →
        cooldownWaits (iteration t w).2 = [time.Seconds t.cfg.RepeatIntervalInSeconds] ∧
          (iteration t w).1 = true) ∧
      (∀ apps err, (checker.GetAppointments w t.checker).1 = .returned (apps, some err) →
        cooldownWaits (iteration t w).2 = [] ∧ (iteration t w).1 = true) ∧
      ((checker.GetAppointments w t.checker).1 = .returned ([], none) →
        cooldownWaits (iteration t w).2 = [] ∧ (iteration t w).1 = true) := by
  have hobs := iteration_observed t w
  simp only [← mem_notifyCalls, ← mem_cooldownWaits]
  rcases hg : (checker.GetAppointments w t.checker).1 with ⟨as, _ | err⟩ | m
  · cases as with
    | nil =>
      rw [hg] at hobs
      simp only [Prod.mk.injEq] at hobs
      simp [hobs.1, hobs.2.1, hobs.2.2]
    | cons a as =>
      rw [hg] at hobs
      simp only [Prod.mk.injEq] at hobs
      simp [hobs.1, hobs.2.1, hobs.2.2]
  · rw [hg] at hobs
    simp only [Prod.mk.injEq] at hobs
    simp [hobs.1, hobs.2.1, hobs.2.2]
  · rw [hg] at hobs
    simp only [Prod.mk.injEq] at hobs
    simp [hobs.1, hobs.2.1, hobs.2.2]

theorem cooldown_iff_notifier_invoked_witness :
    cooldownWaits (iteration exampleTicker (servingWorld 200 (page [augustTable]))).2 =
        [60000000000] ∧
      cooldownWaits (iteration exampleTicker (mailRefusedWorld (page [augustTable]))).2 =
        [60000000000] ∧
      cooldownWaits (iteration exampleTicker (servingWorld 200 (page [septemberTable]))).2 =
        [] ∧
      cooldownWaits (iteration exampleTicker (servingWorld 404 (page [augustTable]))).2 = [] :=
  ⟨((cooldown_iff_notifier_invoked exampleTicker
        (servingWorld 200 (page [augustTable]))).2.1
        [⟨"12", "August"⟩, ⟨"19", "August"⟩] (by decide)).1.trans (by decide),
    ((cooldown_iff_notifier_invoked exampleTicker
        (mailRefusedWorld (page [augustTable]))).2.1
        [⟨"12", "August"⟩, ⟨"19", "August"⟩] (by decide)).1.trans (by decide),
    ((cooldown_iff_notifier_invoked exampleTicker
        (servingWorld 200 (page [septemberTable]))).2.2.2 (by decide)).1,
    ((cooldown_iff_notifier_invoked exampleTicker
        (servingWorld 404 (page [augustTable]))).2.2.1 []
        "received non okay status code: 302" (by decide)).1⟩

end ticker

/-! ## The notification mail -/

namespace notifier

open examples

/-- Claim C9: for every configuration, two slot lists of the same length give
the same message, byte for byte, and the same call of `smtp.SendMail`; the
body is the fixed text with the length in decimal and the configured MsgURL,
so no Day or Month of a slot reaches the message. -/
theorem msg_depends_on_slot_count_only (w : World) (n : smtpNotifier)
    (a1 a2 : List checker.Appointment) (h : a1.length = a2.length) :
    msg n a1 = msg n a2 ∧ (msg n a1).toUTF8 = (msg n a2).toUTF8 ∧
      Notify w n a1 = Notify w n a2 ∧
      msgBody n a1 =
        "Hello!\nThere are " ++ Nat.repr a1.length ++ " new apppointments on " ++
          n.cfg.MsgURL ++ "!" := by
  have hm : msg n a1 = msg n a2 := by simp [msg, msgBody, h]
  refine ⟨hm, by rw [hm], ?_, rfl⟩
  simp [Notify, hm, h]

theorem msg_depends_on_slot_count_only_witness :
    msg exampleNotifier [⟨"12", "August"⟩, ⟨"19", "August"⟩] =
        msg exampleNotifier [⟨"1", "Mai"⟩, ⟨"2", "Juni"⟩] ∧
      msg exampleNotifier [⟨"1", "Mai"⟩, ⟨"2", "Juni"⟩] =
        "From: me@x\r\nTo: [a@x b@y]\r\nSubject: Termine\r\n" ++
          "Hello!\nThere are 2 new apppointments on https://service.example!" :=
  ⟨(msg_depends_on_slot_count_only (servingWorld 200 (page [augustTable])) exampleNotifier
      [⟨"12", "August"⟩, ⟨"19", "August"⟩] [⟨"1", "Mai"⟩, ⟨"2", "Juni"⟩] (by decide)).1,
    by decide⟩

/-- Claim C10 fails on the code. With the recipients a@x and b@y the header has
its three lines ended by CRLF, but the `To` line holds the recipients as `%s`
prints a slice, between square brackets and separated by a space, not joined
with commas. -/
theorem msgHeader_prints_recipient_slice :
    exampleNotifier.cfg.To = ["a@x", "b@y"] ∧
      msgHeader exampleNotifier =
        "From: me@x\r\nTo: [a@x b@y]\r\nSubject: Termine\r\n" ∧
      msgHeader exampleNotifier ≠
        "From: me@x\r\nTo: a@x,b@y\r\nSubject: Termine\r\n" ∧
      msgHeader exampleNotifier ≠
        "From: me@x\r\nTo: a@x, b@y\r\nSubject: Termine\r\n" := by
  refine ⟨by decide, by decide, by decide, by decide⟩

end notifier
